import Mathlib

/-!
Shallow embedding of the pagination and partial-update core of
`peewee_generics` (files `component.py`, `model.py`, `schema.py`).

Queries are modelled as lists of rows; `query.count()` is the length of the
row list; peewee's `paginate(page, n)` compiles (for the pinned peewee 3.6 /
SQLite pair) to `LIMIT (n or -1) OFFSET (page - 1) * n`, where SQLite treats
a negative LIMIT as "no limit" and a negative OFFSET as 0.  A context dict is
modelled as a structure of optional entries (`none` = key absent); records
are association lists in Python dict insertion order.
-/

namespace PG

/-- JSON-like values, the serialization target of a marshmallow schema dump. -/
inductive Value where
  | vInt (i : Int)
  | vStr (s : String)
  | vNull
  | vList (xs : List Value)
  | vObj (kvs : List (String × Value))
  deriving Repr

/-- The pagination metadata dict built by `GenericComponent.add_metadata`
(`component.py` lines 56-64); one field per dict entry, in source order. -/
structure Metadata where
  count : Int
  remaining : Int
  offset : Int
  limit : Int
  nxt : Option String
  prev : Option String
  routeArgs : Value
  deriving Repr

/-- The `context` dict threaded through component and schema.  `none` models
an absent key; `wrapper`/`child` model the truthiness of those entries. -/
structure Ctx where
  offset : Option Int := none
  limit : Option Int := none
  nxt : Option String := none
  prev : Option String := none
  routeArgs : Option Value := none
  wrapper : Bool := false
  child : Bool := false
  metadata : Option Metadata := none
  deriving Repr

/-- The empty context, modelling `DEFAULT_DICT` (an empty `ImmutableDict`). -/
def emptyCtx : Ctx := {}

/-- SQLite `LIMIT lim OFFSET off` on a row list: a negative OFFSET is treated
as 0, a negative LIMIT means unlimited. -/
def sqliteSlice (rows : List α) (lim off : Int) : List α :=
  let dropped := rows.drop (max off 0).toNat
  if lim < 0 then dropped else dropped.take lim.toNat

/-- peewee `Select.paginate(page, n)`: `limit(n).offset((page - 1) * n)` with
`page` decremented only when positive; SQL emission substitutes the SQLite
sentinel -1 for a falsy limit (`self._limit or limit_max`). -/
def paginate (rows : List α) (page lim : Int) : List α :=
  let page1 := if page > 0 then page - 1 else page
  let sqlLimit := if lim = 0 then (-1 : Int) else lim
  sqliteSlice rows sqlLimit (page1 * lim)

/-- The `if query and offset:` block of `add_metadata` (`component.py` lines
50-54): when the query is non-empty (`bool(query)` executes the query and
tests its row count) and the offset truthy, narrow the query and compute
`remaining = max(total - (limit * (offset - 1)) - query.count(), 0)`;
otherwise leave the query as is with `remaining = 0`. -/
def narrowStep (rows : List α) (offset limit : Int) : List α × Int :=
  if rows.length ≠ 0 ∧ offset ≠ 0 then
    let q := paginate rows offset limit
    (q, max ((rows.length : Int) - limit * (offset - 1) - (q.length : Int)) 0)
  else
    (rows, 0)

/-- `GenericComponent.add_metadata(query, context)` (`component.py`):
reads `offset` (default 1) and `limit` (default 0) from the context, counts
the query, narrows it via `narrowStep`, and stores the metadata dict on the
returned context. -/
def addMetadata (rows : List α) (ctx : Ctx) : List α × Ctx :=
  let offset : Int := ctx.offset.getD 1
  let limit : Int := ctx.limit.getD 0
  let step := narrowStep rows offset limit
  let md : Metadata :=
    { count := rows.length
      remaining := step.2
      offset := offset
      limit := limit
      nxt := if step.2 > 0 then ctx.nxt else none
      prev := if offset > 1 then ctx.prev else none
      routeArgs := ctx.routeArgs.getD (Value.vObj []) }
  (step.1, { ctx with metadata := some md })

/-- A `str | None` value as it appears in the serialized metadata dict. -/
def optVal : Option String → Value
  | some s => Value.vStr s
  | none => Value.vNull

/-- The metadata dict as a key-value object, keys in source insertion order. -/
def Metadata.toObj (md : Metadata) : List (String × Value) :=
  [("count", Value.vInt md.count),
   ("remaining", Value.vInt md.remaining),
   ("offset", Value.vInt md.offset),
   ("limit", Value.vInt md.limit),
   ("next", optVal md.nxt),
   ("previous", optVal md.prev),
   ("route_args", md.routeArgs)]

/-- `GenericSchema.wrap_data` (`schema.py` lines 93-98): when the schema
context holds a `metadata` key and no truthy `child` key, the dumped data is
stored under `items` on the metadata dict, which becomes the result. -/
def wrapData (ctx : Ctx) (data : Value) : Value :=
  match ctx.metadata, ctx.child with
  | some md, false => Value.vObj (md.toObj ++ [("items", data)])
  | _, _ => data

/-- Top-level keys of an object value (a non-object has none). -/
def objKeys : Value → List String
  | Value.vObj kvs => kvs.map Prod.fst
  | _ => []

/-- Lookup of a top-level key in an object value. -/
def objGet (v : Value) (k : String) : Option Value :=
  match v with
  | Value.vObj kvs => (kvs.find? (fun kv => kv.1 == k)).map Prod.snd
  | _ => none

/-- `schema(context=ctx).dump(rows, many=True).data`: serialize each row,
then the `post_dump` hook `wrap_with_wrapper` applies `wrap_data`. -/
def dump (ctx : Ctx) (serialize : α → Value) (rows : List α) : Value :=
  wrapData ctx (Value.vList (rows.map serialize))

/-- `GenericComponent.get_items` (`component.py` lines 115-128) with the
generic `search` (identity) and `base_query` (all rows): when the component
context has a truthy `wrapper`, narrow and wrap via `add_metadata`; otherwise
dump against the `context` parameter (source default `DEFAULT_DICT`). -/
def getItems (selfCtx ctxArg : Ctx) (rows : List α) (serialize : α → Value) : Value :=
  if selfCtx.wrapper then
    let r := addMetadata rows selfCtx
    dump r.2 serialize r.1
  else
    dump ctxArg serialize rows

/-- A model instance's field data (`__data__`): an association list in dict
insertion order. -/
abbrev Rec (V : Type) := List (String × V)

/-- Python dict/peewee field assignment `setattr(self, k, v)`: replace the
value in place when the key exists, otherwise append it. -/
def setField (r : Rec V) (k : String) (v : V) : Rec V :=
  if r.any (fun kv => kv.1 == k) then
    r.map (fun kv => if kv.1 == k then (k, v) else kv)
  else r ++ [(k, v)]

/-- First value stored under a key, if any. -/
def getField (r : Rec V) (k : String) : Option V :=
  (r.find? (fun kv => kv.1 == k)).map Prod.snd

/-- The record's key set (in order). -/
def recKeys (r : Rec V) : List String := r.map Prod.fst

/-- The model class as seen by `update_instance`: which attribute names are
peewee `Field`s, and which other class attributes exist (a non-`Field`
attribute fails the `isinstance` check; a missing one fails `getattr`). -/
structure ModelClass where
  fields : List String
  nonFieldAttrs : List String

/-- `isinstance(getattr(cls, k), peewee.Field)` succeeds. -/
def ModelClass.isField (mc : ModelClass) (k : String) : Bool :=
  mc.fields.contains k

/-- `getattr(cls, k)` succeeds (the class has some attribute named `k`). -/
def ModelClass.hasAttr (mc : ModelClass) (k : String) : Bool :=
  mc.fields.contains k || mc.nonFieldAttrs.contains k

/-- The `for key, val in data.items()` loop of `update_instance`
(`model.py` lines 47-56): per key, `getattr` then the `isinstance` check then
`setattr`, raising `AttributeError` as the source does.  Returns the
in-memory record together with the error message, if any. -/
def updateFields (mc : ModelClass) : Rec V → List (String × V) → Rec V × Option String
  | r, [] => (r, none)
  | r, (k, v) :: rest =>
    if mc.hasAttr k then
      if mc.isField k then updateFields mc (setField r k v) rest
      else (r, some ("Missing field for " ++ k))
    else (r, some ("type object has no attribute " ++ k))

/-- `GenericModel.update_instance(data)` acting on an in-memory record `r`
whose persisted row is `stored`: run the loop, then `self.save()` persists
the in-memory record only when the loop finished without raising.  Returns
(in-memory record, persisted record, error). -/
def updateInstance (mc : ModelClass) (r stored : Rec V) (data : List (String × V)) :
    Rec V × Rec V × Option String :=
  match updateFields mc r data with
  | (r2, none) => (r2, r2, none)
  | (r2, some e) => (r2, stored, some e)

/-- Apply a list of assignments left to right. -/
def applyAll (r : Rec V) (kvs : List (String × V)) : Rec V :=
  kvs.foldl (fun acc kv => setField acc kv.1 kv.2) r

/-! ## Helper lemmas -/

theorem paginate_limit_zero (rows : List α) (page : Int) :
    paginate rows page 0 = rows := by
  simp [paginate, sqliteSlice]

theorem narrowStep_limit_zero (rows : List α) (o : Int) :
    narrowStep rows o 0 = (rows, 0) := by
  unfold narrowStep
  split
  · rw [paginate_limit_zero]
    simp
  · rfl

theorem addMetadata_fst (rows : List α) (ctx : Ctx) :
    (addMetadata rows ctx).1
      = (narrowStep rows (ctx.offset.getD 1) (ctx.limit.getD 0)).1 := rfl

theorem addMetadata_snd (rows : List α) (ctx : Ctx) :
    (addMetadata rows ctx).2.metadata = some
      { count := rows.length
        remaining := (narrowStep rows (ctx.offset.getD 1) (ctx.limit.getD 0)).2
        offset := ctx.offset.getD 1
        limit := ctx.limit.getD 0
        nxt := if (narrowStep rows (ctx.offset.getD 1) (ctx.limit.getD 0)).2 > 0
          then ctx.nxt else none
        prev := if ctx.offset.getD 1 > 1 then ctx.prev else none
        routeArgs := ctx.routeArgs.getD (Value.vObj []) } := rfl

theorem narrowStep_remaining (rows : List α) (o l : Int) (hl : 0 < l) (ho : 1 ≤ o) :
    (narrowStep rows o l).2
      = max ((rows.length : Int) - l * (o - 1) - ((narrowStep rows o l).1.length : Int)) 0 := by
  unfold narrowStep
  by_cases hc : rows.length ≠ 0 ∧ o ≠ 0
  · simp only [if_pos hc]
  · simp only [if_neg hc]
    have hrows : rows.length = 0 := by
      by_contra hne
      exact hc ⟨hne, by omega⟩
    rw [hrows]
    have hp : 0 ≤ l * (o - 1) := mul_nonneg (le_of_lt hl) (by omega)
    have : ((0 : Nat) : Int) - l * (o - 1) - ((0 : Nat) : Int) ≤ 0 := by
      push_cast
      linarith
    rw [max_eq_right this]

/-! ## Record update lemmas -/

theorem recKeys_setField (r : Rec V) (k : String) (v : V) (h : k ∈ recKeys r) :
    recKeys (setField r k v) = recKeys r := by
  have hA : r.any (fun kv => kv.1 == k) = true := by
    simp only [recKeys, List.mem_map] at h
    obtain ⟨kv, hkv, hfst⟩ := h
    exact List.any_eq_true.mpr ⟨kv, hkv, by simp [hfst]⟩
  simp only [setField, hA, if_true]
  simp only [recKeys, List.map_map]
  apply List.map_congr_left
  intro kv _
  by_cases hk : kv.1 = k
  · simp [hk]
  · simp [hk]

theorem getField_map_upd (r : Rec V) (k k' : String) (v : V) (hne : k' ≠ k) :
    getField (r.map (fun kv => if kv.1 == k then (k, v) else kv)) k'
      = getField r k' := by
  induction r with
  | nil => rfl
  | cons kv t ih =>
    simp only [getField, List.map_cons, List.find?_cons] at ih ⊢
    by_cases hk : kv.1 = k
    · have hif : (if (kv.1 == k) = true then (k, v) else kv) = (k, v) := by simp [hk]
      have hp1 : ((k, v).1 == k') = false := by simp [Ne.symm hne]
      have hp2 : (kv.1 == k') = false := by simp [hk, Ne.symm hne]
      rw [hif, hp1, hp2]
      exact ih
    · have hif : (if (kv.1 == k) = true then (k, v) else kv) = kv := by simp [hk]
      rw [hif]
      by_cases hk' : kv.1 = k'
      · have hp : (kv.1 == k') = true := by simp [hk']
        rw [hp]
      · have hp : (kv.1 == k') = false := by simp [hk']
        rw [hp]
        exact ih

theorem getField_append_single_ne (r : Rec V) (k k' : String) (v : V) (hne : k' ≠ k) :
    getField (r ++ [(k, v)]) k' = getField r k' := by
  simp only [getField, List.find?_append]
  have h1 : ([(k, v)] : Rec V).find? (fun kv => kv.1 == k') = none := by
    simp [Ne.symm hne]
  rw [h1, Option.or_none]

theorem getField_setField_ne (r : Rec V) (k k' : String) (v : V) (hne : k' ≠ k) :
    getField (setField r k v) k' = getField r k' := by
  unfold setField
  split
  · exact getField_map_upd r k k' v hne
  · exact getField_append_single_ne r k k' v hne

theorem isField_mem (mc : ModelClass) (k : String) (h : mc.isField k = true) :
    k ∈ mc.fields := by
  simpa [ModelClass.isField] using h

theorem isField_hasAttr (mc : ModelClass) (k : String) (h : mc.isField k = true) :
    mc.hasAttr k = true := by
  simp [ModelClass.hasAttr, ModelClass.isField] at h ⊢
  exact Or.inl h

theorem updateFields_invalid (mc : ModelClass) (r : Rec V) (data : List (String × V))
    (h : ∃ kv ∈ data, mc.isField kv.1 = false) :
    ((updateFields mc r data).2).isSome = true ∧
    (updateFields mc r data).1
      = applyAll r (data.takeWhile (fun kv => mc.isField kv.1)) := by
  induction data generalizing r with
  | nil =>
    obtain ⟨kv, hkv, _⟩ := h
    simp at hkv
  | cons hd tl ih =>
    obtain ⟨k, v⟩ := hd
    by_cases hf : mc.isField k = true
    · have hA := isField_hasAttr mc k hf
      have h' : ∃ kv ∈ tl, mc.isField kv.1 = false := by
        obtain ⟨kv, hkv, hkvf⟩ := h
        rcases List.mem_cons.mp hkv with he | hm
        · rw [he] at hkvf
          rw [hf] at hkvf
          cases hkvf
        · exact ⟨kv, hm, hkvf⟩
      have IH := ih (setField r k v) h'
      constructor
      · simpa [updateFields, hA, hf] using IH.1
      · have e1 : updateFields mc r ((k, v) :: tl) = updateFields mc (setField r k v) tl := by
          simp [updateFields, hA, hf]
        have e2 : ((k, v) :: tl).takeWhile (fun kv => mc.isField kv.1)
            = (k, v) :: tl.takeWhile (fun kv => mc.isField kv.1) := by
          simp [List.takeWhile_cons, hf]
        rw [e1, e2]
        exact IH.2
    · have hfF : mc.isField k = false := by
        cases hb : mc.isField k
        · rfl
        · exact absurd hb hf
      have e2 : ((k, v) :: tl).takeWhile (fun kv => mc.isField kv.1) = [] := by
        simp [List.takeWhile_cons, hfF]
      rw [e2]
      by_cases hA : mc.hasAttr k = true
      · constructor
        · simp [updateFields, hA, hfF]
        · simp [updateFields, hA, hfF, applyAll]
      · have hAF : mc.hasAttr k = false := by
          cases hb : mc.hasAttr k
          · rfl
          · exact absurd hb hA
        constructor
        · simp [updateFields, hAF]
        · simp [updateFields, hAF, applyAll]

theorem updateFields_success (mc : ModelClass) (r : Rec V) (data : List (String × V))
    (hsub : ∀ k ∈ mc.fields, k ∈ recKeys r)
    (hok : (updateFields mc r data).2 = none) :
    recKeys (updateFields mc r data).1 = recKeys r ∧
    ∀ k', k' ∉ data.map Prod.fst →
      getField (updateFields mc r data).1 k' = getField r k' := by
  induction data generalizing r with
  | nil => simp [updateFields]
  | cons hd tl ih =>
    obtain ⟨k, v⟩ := hd
    by_cases hf : mc.isField k = true
    · have hA := isField_hasAttr mc k hf
      have hkmem : k ∈ recKeys r := hsub k (isField_mem mc k hf)
      have e1 : updateFields mc r ((k, v) :: tl) = updateFields mc (setField r k v) tl := by
        simp [updateFields, hA, hf]
      have hsub' : ∀ k₀ ∈ mc.fields, k₀ ∈ recKeys (setField r k v) := by
        intro k₀ hk₀
        rw [recKeys_setField r k v hkmem]
        exact hsub k₀ hk₀
      have hok' : (updateFields mc (setField r k v) tl).2 = none := by
        rw [e1] at hok
        exact hok
      have IH := ih (setField r k v) hsub' hok'
      constructor
      · rw [e1, IH.1, recKeys_setField r k v hkmem]
      · intro k' hk'
        have hne : k' ≠ k := by
          intro e
          exact hk' (by simp [e])
        have hnotl : k' ∉ tl.map Prod.fst := by
          intro m
          exact hk' (by simp [m])
        rw [e1, IH.2 k' hnotl, getField_setField_ne r k k' v hne]
    · exfalso
      have hfF : mc.isField k = false := by
        cases hb : mc.isField k
        · rfl
        · exact absurd hb hf
      by_cases hA : mc.hasAttr k = true
      · simp [updateFields, hA, hfF] at hok
      · have hAF : mc.hasAttr k = false := by
          cases hb : mc.hasAttr k
          · rfl
          · exact absurd hb hA
        simp [updateFields, hAF] at hok

theorem updateInstance_fst (mc : ModelClass) (r stored : Rec V) (data : List (String × V)) :
    (updateInstance mc r stored data).1 = (updateFields mc r data).1 := by
  unfold updateInstance
  rcases hu : updateFields mc r data with ⟨r2, e⟩
  cases e <;> simp

theorem updateInstance_err (mc : ModelClass) (r stored : Rec V) (data : List (String × V)) :
    (updateInstance mc r stored data).2.2 = (updateFields mc r data).2 := by
  unfold updateInstance
  rcases hu : updateFields mc r data with ⟨r2, e⟩
  cases e <;> simp

theorem updateInstance_stored (mc : ModelClass) (r stored : Rec V)
    (data : List (String × V))
    (herr : ((updateFields mc r data).2).isSome = true) :
    (updateInstance mc r stored data).2.1 = stored := by
  unfold updateInstance
  rcases hu : updateFields mc r data with ⟨r2, e⟩
  rw [hu] at herr
  cases e with
  | none => simp at herr
  | some msg => simp

/-! ## Pagination claims -/

/-- Claim C1: for every total_count ≥ 0, limit > 0 and offset ≥ 1, the
metadata computed by `add_metadata` satisfies
`remaining = max(total_count - limit * (offset - 1) - len(items), 0)`, where
`len(items)` is the number of records in the narrowed page. -/
theorem addMetadata_remaining (rows : List α) (ctx : Ctx)
    (hl : 0 < ctx.limit.getD 0) (ho : 1 ≤ ctx.offset.getD 1)
    (md : Metadata) (hmd : (addMetadata rows ctx).2.metadata = some md) :
    md.remaining
      = max ((rows.length : Int) - ctx.limit.getD 0 * (ctx.offset.getD 1 - 1)
          - (((addMetadata rows ctx).1.length : Int))) 0 := by
  have h := Option.some.inj ((addMetadata_snd rows ctx).symm.trans hmd)
  subst h
  rw [addMetadata_fst]
  exact narrowStep_remaining rows _ _ hl ho

/-- Witness for C1: three records, limit 1, page 2 gives remaining 1. -/
theorem addMetadata_remaining_w :
    ({ count := 3, remaining := 1, offset := 2, limit := 1, nxt := none, prev := none,
        routeArgs := Value.vObj [] } : Metadata).remaining
      = max ((([0, 1, 2] : List Nat).length : Int)
          - ({ offset := some 2, limit := some 1 } : Ctx).limit.getD 0
            * (({ offset := some 2, limit := some 1 } : Ctx).offset.getD 1 - 1)
          - (((addMetadata [0, 1, 2] ({ offset := some 2, limit := some 1 } : Ctx)).1.length : Int)))
          0 :=
  addMetadata_remaining [0, 1, 2] { offset := some 2, limit := some 1 }
    (by decide) (by decide)
    { count := 3, remaining := 1, offset := 2, limit := 1, nxt := none, prev := none,
      routeArgs := Value.vObj [] } rfl

/-- Claim C3 counterexample: `add_metadata` raises nothing at all; with
offset 0 (< 1) and limit -5 (< 0) it returns normally, handing back the
un-narrowed rows and a populated metadata dict instead of failing. -/
theorem addMetadata_no_failure_cex :
    (addMetadata [0, 1, 2] ({ offset := some 0, limit := some (-5) } : Ctx)).1 = [0, 1, 2] ∧
    ((addMetadata [0, 1, 2] ({ offset := some 0, limit := some (-5) } : Ctx)).2.metadata.map
      (fun md => (md.count, md.remaining, md.nxt, md.prev)))
      = some (3, 0, (none : Option String), (none : Option String)) :=
  ⟨rfl, rfl⟩

/-- Claim C3 amended: `add_metadata` performs no validation of offset or
limit and never fails: for every query and context (including offset < 1 or
limit < 0) it returns normally with the metadata dict attached. -/
theorem addMetadata_never_fails (rows : List α) (ctx : Ctx) :
    ((addMetadata rows ctx).2.metadata).isSome = true := rfl

/-- Claim C4 counterexample: with limit 5 (≠ 0) and offset 1 over three
records, all items are returned, remaining is 0 and the next marker is
absent (despite the context carrying a next URL) — so these three outcomes
do not hold *only* when limit = 0. -/
theorem addMetadata_limit_pos_all_cex :
    (addMetadata [0, 1, 2]
        ({ offset := some 1, limit := some 5, nxt := some "u" } : Ctx)).1 = [0, 1, 2] ∧
    ((addMetadata [0, 1, 2]
        ({ offset := some 1, limit := some 5, nxt := some "u" } : Ctx)).2.metadata.map
      (fun md => (md.remaining, md.nxt))) = some (0, (none : Option String)) ∧
    ({ offset := some 1, limit := some 5, nxt := some "u" } : Ctx).limit.getD 0 ≠ 0 :=
  ⟨rfl, rfl, by decide⟩

/-- Claim C4 amended: when limit = 0 (and offset ≥ 1) pagination returns all
items of the result set, remaining is 0 and the next marker is absent; the
converse fails (see the counterexample: any limit covering the whole result
set from page 1 produces the same three outcomes). -/
theorem addMetadata_limit_zero (rows : List α) (ctx : Ctx)
    (h0 : ctx.limit.getD 0 = 0) (_ho : 1 ≤ ctx.offset.getD 1) :
    (addMetadata rows ctx).1 = rows ∧
    ((addMetadata rows ctx).2.metadata.map (fun md => (md.remaining, md.nxt)))
      = some (0, (none : Option String)) := by
  constructor
  · rw [addMetadata_fst, h0, narrowStep_limit_zero]
  · rw [addMetadata_snd, h0, narrowStep_limit_zero]
    simp

/-- Witness for C4: limit 0 on three records returns all of them. -/
theorem addMetadata_limit_zero_w :
    (addMetadata [0, 1, 2] ({ offset := some 3, limit := some 0, nxt := some "u" } : Ctx)).1
      = [0, 1, 2] ∧
    ((addMetadata [0, 1, 2]
        ({ offset := some 3, limit := some 0, nxt := some "u" } : Ctx)).2.metadata.map
      (fun md => (md.remaining, md.nxt))) = some (0, (none : Option String)) :=
  addMetadata_limit_zero [0, 1, 2] { offset := some 3, limit := some 0, nxt := some "u" }
    (by decide) (by decide)

/-- Claim C5 counterexample: with three records, limit 1 and offset 2 but a
context carrying no next URL (exactly the situation of the repository's own
`test_get_items_with_wrapper_pagination`), remaining is 1 > 0 yet the next
marker is null — "next populated iff remaining > 0" fails. -/
theorem addMetadata_next_missing_cex :
    ((addMetadata [0, 1, 2] ({ offset := some 2, limit := some 1 } : Ctx)).2.metadata.map
      (fun md => (md.remaining, md.nxt))) = some (1, (none : Option String)) ∧
    (0 : Int) < 1 :=
  ⟨rfl, by decide⟩

/-- Claim C5 amended: the next marker is populated iff remaining > 0 *and*
the context supplies a next URL; the previous marker is populated iff
offset > 1 *and* the context supplies a previous URL; each is null whenever
its pagination condition fails. -/
theorem addMetadata_markers (rows : List α) (ctx : Ctx) (md : Metadata)
    (hmd : (addMetadata rows ctx).2.metadata = some md) :
    (md.nxt ≠ none ↔ 0 < md.remaining ∧ ctx.nxt ≠ none) ∧
    (md.prev ≠ none ↔ 1 < md.offset ∧ ctx.prev ≠ none) := by
  have h := Option.some.inj ((addMetadata_snd rows ctx).symm.trans hmd)
  subst h
  dsimp only
  constructor
  · split_ifs with h
    · simp [h]
    · simp [h]
  · split_ifs with h
    · simp [h]
    · simp [h]

/-- Witness for C5 amended: context with both URLs, page 2 of 3 with limit 1:
remaining 1 > 0 and offset 2 > 1, both markers populated (stated with the
metadata fields evaluated). -/
theorem addMetadata_markers_w :
    ((some "u" : Option String) ≠ none ↔ (0 : Int) < 1 ∧ (some "u" : Option String) ≠ none) ∧
    ((some "p" : Option String) ≠ none ↔ (1 : Int) < 2 ∧ (some "p" : Option String) ≠ none) :=
  addMetadata_markers [0, 1, 2]
    { offset := some 2, limit := some 1, nxt := some "u", prev := some "p" }
    { count := 3, remaining := 1, offset := 2, limit := 1, nxt := some "u", prev := some "p", routeArgs := Value.vObj [] }
    rfl

/-- Claim C9: calling `add_metadata` with offset 0 skips narrowing entirely:
the query is returned un-paginated, remaining is 0 and both markers are
null, with no error raised (the embedding is a total function). -/
theorem addMetadata_offset_zero (rows : List α) (ctx : Ctx) (h : ctx.offset = some 0) :
    (addMetadata rows ctx).1 = rows ∧
    ((addMetadata rows ctx).2.metadata.map
      (fun md => (md.count, md.remaining, md.nxt, md.prev)))
      = some ((rows.length : Int), 0, (none : Option String), (none : Option String)) := by
  have ho : ctx.offset.getD 1 = 0 := by rw [h]; rfl
  have hstep : narrowStep rows (ctx.offset.getD 1) (ctx.limit.getD 0) = (rows, 0) := by
    rw [ho]
    unfold narrowStep
    simp
  constructor
  · rw [addMetadata_fst, hstep]
  · rw [addMetadata_snd, hstep, ho]
    simp

/-- Witness for C9: offset 0 with a nonzero limit leaves two records intact. -/
theorem addMetadata_offset_zero_w :
    (addMetadata [5, 6] ({ offset := some 0, limit := some 9, nxt := some "u" } : Ctx)).1
      = [5, 6] ∧
    ((addMetadata [5, 6]
        ({ offset := some 0, limit := some 9, nxt := some "u" } : Ctx)).2.metadata.map
      (fun md => (md.count, md.remaining, md.nxt, md.prev)))
      = some ((([5, 6] : List Nat).length : Int), 0, (none : Option String),
          (none : Option String)) :=
  addMetadata_offset_zero [5, 6] { offset := some 0, limit := some 9, nxt := some "u" } rfl

/-! ## Partial update claims -/

/-- Claim C2 counterexample: an update map with a valid key (`text`) before
the unknown key (`bogus`) makes `update_instance` raise, yet the in-memory
record was already mutated — validation is interleaved with assignment, not
performed for every key up front. -/
theorem updateInstance_mutates_before_error_cex :
    ((updateInstance ⟨["id", "text"], []⟩ [("id", (0 : Nat)), ("text", 1)]
        [("id", (0 : Nat)), ("text", 1)] [("text", 5), ("bogus", 7)]).2.2).isSome = true ∧
    (updateInstance ⟨["id", "text"], []⟩ [("id", (0 : Nat)), ("text", 1)]
        [("id", (0 : Nat)), ("text", 1)] [("text", 5), ("bogus", 7)]).1
      ≠ [("id", (0 : Nat)), ("text", 1)] :=
  ⟨rfl, by decide⟩

/-- Claim C2 amended: keys are validated one at a time, each immediately
before its assignment, in map order; the first unknown key aborts with
`AttributeError` before `save()`, so the persisted record is unchanged, but
the in-memory record already holds the assignments of the longest valid
prefix of the map. -/
theorem updateInstance_invalid_key (mc : ModelClass) (r stored : Rec V)
    (data : List (String × V)) (h : ∃ kv ∈ data, mc.isField kv.1 = false) :
    ((updateInstance mc r stored data).2.2).isSome = true ∧
    (updateInstance mc r stored data).2.1 = stored ∧
    (updateInstance mc r stored data).1
      = applyAll r (data.takeWhile (fun kv => mc.isField kv.1)) := by
  have hinv := updateFields_invalid mc r data h
  refine ⟨?_, ?_, ?_⟩
  · rw [updateInstance_err]
    exact hinv.1
  · exact updateInstance_stored mc r stored data hinv.1
  · rw [updateInstance_fst]
    exact hinv.2

/-- Witness for C2 amended: map `[text ↦ 5, bogus ↦ 7]` fails, leaves the
stored record alone, and the in-memory record holds the `text` assignment. -/
theorem updateInstance_invalid_key_w :
    ((updateInstance ⟨["id", "text"], []⟩ [("id", (0 : Nat)), ("text", 1)]
        [("id", (0 : Nat)), ("text", 1)] [("text", 5), ("bogus", 7)]).2.2).isSome = true ∧
    (updateInstance ⟨["id", "text"], []⟩ [("id", (0 : Nat)), ("text", 1)]
        [("id", (0 : Nat)), ("text", 1)] [("text", 5), ("bogus", 7)]).2.1
      = [("id", (0 : Nat)), ("text", 1)] ∧
    (updateInstance ⟨["id", "text"], []⟩ [("id", (0 : Nat)), ("text", 1)]
        [("id", (0 : Nat)), ("text", 1)] [("text", 5), ("bogus", 7)]).1
      = applyAll [("id", (0 : Nat)), ("text", 1)]
          (([("text", 5), ("bogus", 7)] : List (String × Nat)).takeWhile
            (fun kv => ModelClass.isField ⟨["id", "text"], []⟩ kv.1)) :=
  updateInstance_invalid_key ⟨["id", "text"], []⟩ [("id", (0 : Nat)), ("text", 1)]
    [("id", (0 : Nat)), ("text", 1)] [("text", 5), ("bogus", 7)] (by decide)

/-- Claim C6: after a successful partial update every field not present in
the update map retains its prior value, and the record's field set gains and
loses no keys (under the data-model invariant that the record carries every
schema field). -/
theorem updateInstance_frame (mc : ModelClass) (r stored : Rec V)
    (data : List (String × V))
    (hsub : ∀ k ∈ mc.fields, k ∈ recKeys r)
    (hok : (updateInstance mc r stored data).2.2 = none) :
    recKeys (updateInstance mc r stored data).1 = recKeys r ∧
    ∀ k, k ∉ data.map Prod.fst →
      getField (updateInstance mc r stored data).1 k = getField r k := by
  rw [updateInstance_err] at hok
  rw [updateInstance_fst]
  exact updateFields_success mc r data hsub hok

/-- Witness for C6: updating only `text` leaves `id` at its prior value. -/
theorem updateInstance_frame_w :
    getField (updateInstance ⟨["id", "text"], []⟩ [("id", (1 : Nat)), ("text", 2)]
        [("id", (1 : Nat)), ("text", 2)] [("text", 5)]).1 "id"
      = getField [("id", (1 : Nat)), ("text", 2)] "id" :=
  (updateInstance_frame ⟨["id", "text"], []⟩ [("id", (1 : Nat)), ("text", 2)]
      [("id", (1 : Nat)), ("text", 2)] [("text", 5)] (by decide) rfl).2 "id" (by decide)

/-- Claim C8: when the update map contains a key that is not a schema field,
`update_instance` raises before `save()` is reached, so the persisted record
is unchanged by the failed call. -/
theorem updateInstance_no_save_on_invalid (mc : ModelClass) (r stored : Rec V)
    (data : List (String × V)) (h : ∃ kv ∈ data, mc.isField kv.1 = false) :
    ((updateInstance mc r stored data).2.2).isSome = true ∧
    (updateInstance mc r stored data).2.1 = stored := by
  have hinv := updateFields_invalid mc r data h
  exact ⟨by rw [updateInstance_err]; exact hinv.1,
    updateInstance_stored mc r stored data hinv.1⟩

/-- Witness for C8: the repository's own invalid-field scenario (`invalid`
is a class attribute but not a `Field`): the call fails and the stored row
is untouched. -/
theorem updateInstance_no_save_on_invalid_w :
    ((updateInstance ⟨["text"], ["invalid"]⟩ [("text", (0 : Nat))]
        [("text", (0 : Nat))] [("invalid", 3)]).2.2).isSome = true ∧
    (updateInstance ⟨["text"], ["invalid"]⟩ [("text", (0 : Nat))]
        [("text", (0 : Nat))] [("invalid", 3)]).2.1 = [("text", (0 : Nat))] :=
  updateInstance_no_save_on_invalid ⟨["text"], ["invalid"]⟩ [("text", (0 : Nat))]
    [("text", (0 : Nat))] [("invalid", 3)] (by decide)

/-! ## Response envelope claims -/

/-- Claim C7 counterexample: the envelope produced by wrapping the metadata
dict has eight top-level keys — `route_args` is present besides the seven
the claim lists. -/
theorem wrapData_route_args_cex :
    objKeys (wrapData (addMetadata [Value.vInt 1]
        ({ offset := some 1, limit := some 0 } : Ctx)).2 (Value.vList []))
      = ["count", "remaining", "offset", "limit", "next", "previous", "route_args", "items"] ∧
    "route_args" ∉ (["count", "remaining", "offset", "limit", "next", "previous", "items"]
      : List String) :=
  ⟨rfl, by decide⟩

/-- Claim C7 amended: the envelope's top-level keys are exactly `count`,
`remaining`, `offset`, `limit`, `next`, `previous`, `route_args` and
`items` (in that order), with the serialized records stored under `items`. -/
theorem wrapData_envelope_keys (ctx : Ctx) (md : Metadata) (data : Value)
    (h : ctx.metadata = some md) (hc : ctx.child = false) :
    objKeys (wrapData ctx data)
      = ["count", "remaining", "offset", "limit", "next", "previous", "route_args", "items"] ∧
    objGet (wrapData ctx data) "items" = some data := by
  unfold wrapData
  rw [h, hc]
  exact ⟨rfl, rfl⟩

/-- Witness for C7 amended at a concrete metadata dict and items list. -/
theorem wrapData_envelope_keys_w :
    objKeys (wrapData ({ metadata := some { count := 1, remaining := 0, offset := 1, limit := 0, nxt := none, prev := none, routeArgs := Value.vObj [] } } : Ctx) Value.vNull)
      = ["count", "remaining", "offset", "limit", "next", "previous", "route_args", "items"] ∧
    objGet (wrapData ({ metadata := some { count := 1, remaining := 0, offset := 1, limit := 0, nxt := none, prev := none, routeArgs := Value.vObj [] } } : Ctx) Value.vNull) "items"
      = some Value.vNull :=
  wrapData_envelope_keys
    { metadata := some { count := 1, remaining := 0, offset := 1, limit := 0, nxt := none, prev := none, routeArgs := Value.vObj [] } }
    { count := 1, remaining := 0, offset := 1, limit := 0, nxt := none, prev := none, routeArgs := Value.vObj [] }
    Value.vNull rfl rfl

/-- Claim C10: with the `context` parameter at its source default
(`DEFAULT_DICT`, the empty dict), `get_items` produces the envelope only
when the component context has a truthy `wrapper`; without it the result is
the bare ordered list of serialized records, with no top-level keys. -/
theorem getItems_no_wrapper (selfCtx : Ctx) (rows : List α) (serialize : α → Value)
    (h : selfCtx.wrapper = false) :
    getItems selfCtx emptyCtx rows serialize = Value.vList (rows.map serialize) ∧
    objKeys (getItems selfCtx emptyCtx rows serialize) = [] := by
  have e : getItems selfCtx emptyCtx rows serialize = dump emptyCtx serialize rows := by
    unfold getItems
    rw [h]
    simp
  rw [e]
  exact ⟨rfl, rfl⟩

/-- Witness for C10: two records serialize to a bare two-element list. -/
theorem getItems_no_wrapper_w :
    getItems emptyCtx emptyCtx [(0 : Int), 1] Value.vInt
      = Value.vList (([(0 : Int), 1]).map Value.vInt) ∧
    objKeys (getItems emptyCtx emptyCtx [(0 : Int), 1] Value.vInt) = [] :=
  getItems_no_wrapper emptyCtx [(0 : Int), 1] Value.vInt rfl

end PG
